import Mathlib

/-!
# Verification of the snmalloc chunk map

This development shallowly embeds the chunk metadata map of snmalloc:

* the classification tags of `chunkmap_consts.h` (`ChunkMapSuperslabKind`);
* the plain realization `DefaultChunkMap` (one classification byte per
  `SUPERSLAB_SIZE`-granule), from `chunkmap.h`;
* the capability realization `PALCHERIBSD::PalChunkMap` (one pointer per
  granule, classification stashed in the low 8 bits of its address), from
  the CheriBSD PAL.

The pagemap storage backend is modelled as a total function from granule
index (`address >>> SUPERSLAB_BITS`) to the stored cell value, with the
`get` / `set` / `set_range` contract.  Machine arithmetic on `uintptr_t`
and `size_t` is modelled as `Nat` with explicit reduction modulo `2 ^ 64`
where the C++ code can wrap; `uint8_t` cells reduce modulo `256`.
-/

set_option maxHeartbeats 1000000

namespace snmalloc

/-! ## Classification tags (`chunkmap_consts.h`) -/

/-- `CMNotOurs = 0` in `enum ChunkMapSuperslabKind`. -/
def CMNotOurs : Nat := 0

/-- `CMSuperslab = 1` in `enum ChunkMapSuperslabKind`. -/
def CMSuperslab : Nat := 1

/-- `CMMediumslab = 2` in `enum ChunkMapSuperslabKind`. -/
def CMMediumslab : Nat := 2

/-- The compile-time check `static_assert(SUPERSLAB_BITS > CMMediumslab)`
from `chunkmap.h`, as a predicate on the configured `SUPERSLAB_BITS`. -/
def chunkmap_static_assert (SUPERSLAB_BITS : Nat) : Prop :=
  SUPERSLAB_BITS > CMMediumslab

instance (sb : Nat) : Decidable (chunkmap_static_assert sb) :=
  inferInstanceAs (Decidable (CMMediumslab < sb))

/-! ## Machine arithmetic and address utilities -/

/-- Modulus of `uintptr_t` / `size_t` arithmetic (64-bit platform). -/
def PTR_MOD : Nat := 2 ^ 64

/-- Modulus of a `uint8_t` pagemap cell. -/
def BYTE_MOD : Nat := 256

/-- The granule size `SUPERSLAB_SIZE = 2 ^ SUPERSLAB_BITS` (from
`allocconfig.h`, as described by the spec's data model). -/
def SUPERSLAB_SIZE (SUPERSLAB_BITS : Nat) : Nat := 2 ^ SUPERSLAB_BITS

/-- `bits::align_down(x, a)`: round `x` down to a multiple of the
power-of-two `a` (used by `pointer_align_down` in `address.h`). -/
def align_down (x a : Nat) : Nat := x - x % a

/-- `pointer_offset(p, d)` from `address.h`: byte offset on a pointer,
wrapping like `uintptr_t`. -/
def pointer_offset (p d : Nat) : Nat := (p + d) % PTR_MOD

/-- Modelled from the spec: `pointer_diff(base, p)` (its definition is not
among the provided sources; `getp` uses it to rebase an address).  It is
the two's-complement byte difference `p - base` as a `size_t`. -/
def pointer_diff (base p : Nat) : Nat := (p + PTR_MOD - base % PTR_MOD) % PTR_MOD

/-- Modelled from the spec: `bits::next_pow2_bits(x)` (`bits.h` is not
among the provided sources).  Per the spec, `log2(next_pow2(x))`, i.e. the
least `b` with `x ≤ 2 ^ b`; computed by a fuel-driven ceiling-log
recursion so that it evaluates by kernel reduction. -/
def next_pow2_bits_go : Nat → Nat → Nat
  | 0, _ => 0
  | fuel + 1, x => if x ≤ 1 then 0 else next_pow2_bits_go fuel ((x + 1) / 2) + 1

/-- Modelled from the spec: `bits::next_pow2_bits(x) = log2(next_pow2(x))`. -/
def next_pow2_bits (x : Nat) : Nat := next_pow2_bits_go x x

/-- Modelled from the spec: `bits::next_pow2(x)`, the least power of two
that is at least `x`. -/
def next_pow2 (x : Nat) : Nat := 2 ^ next_pow2_bits x

/-! ## Pagemap storage backend

Modelled from the spec (`pagemap.h` is not among the provided sources):
the backend is keyed by granule index, ignoring the low `SUPERSLAB_BITS`
address bits; `get` on a never-written address returns the type's
zero/default value; `set_range` writes a contiguous run of cells.  The
cell modulus `M` is `BYTE_MOD` for the byte pagemap and `PTR_MOD` for the
pointer-valued pagemap of the capability realization. -/

/-- Pagemap `get(p)`: read the cell of the granule containing `p`. -/
def pagemap_get (sb : Nat) (m : Nat → Nat) (p : Nat) : Nat := m (p >>> sb)

/-- Pagemap `set(p, x)`: write `x` (reduced to the cell width `M`) to the
cell of the granule containing `p`. -/
def pagemap_set (M sb : Nat) (m : Nat → Nat) (p x : Nat) : Nat → Nat :=
  fun i => if i = p >>> sb then x % M else m i

/-- Pagemap `set_range(p, x, count)`: write `x` to `count` consecutive
cells starting at the granule containing `p`. -/
def pagemap_set_range (M sb : Nat) (m : Nat → Nat) (p x count : Nat) : Nat → Nat :=
  fun i => if p >>> sb ≤ i ∧ i < p >>> sb + count then x % M else m i

/-! ## The plain realization: `DefaultChunkMap` (`chunkmap.h`) -/

/-- `DefaultChunkMap::get(p)`. -/
def get (sb : Nat) (m : Nat → Nat) (p : Nat) : Nat := pagemap_get sb m p

/-- `DefaultChunkMap::set(p, x)` (private helper): the stored value is the
`uint8_t` cell. -/
def set (sb : Nat) (m : Nat → Nat) (p x : Nat) : Nat → Nat :=
  pagemap_set BYTE_MOD sb m p x

/-- `DefaultChunkMap::set_slab(Superslab*)`. -/
def set_slab_super (sb : Nat) (m : Nat → Nat) (p : Nat) : Nat → Nat :=
  set sb m p CMSuperslab

/-- `DefaultChunkMap::set_slab(Mediumslab*)`. -/
def set_slab_medium (sb : Nat) (m : Nat → Nat) (p : Nat) : Nat → Nat :=
  set sb m p CMMediumslab

/-- The `assert(get(slab) == CMSuperslab)` guarding
`DefaultChunkMap::clear_slab(Superslab*)`. -/
def clear_slab_super_assert (sb : Nat) (m : Nat → Nat) (p : Nat) : Prop :=
  get sb m p = CMSuperslab

/-- `DefaultChunkMap::clear_slab(Superslab*)` (state update; the guarding
`assert` is `clear_slab_super_assert`). -/
def clear_slab_super (sb : Nat) (m : Nat → Nat) (p : Nat) : Nat → Nat :=
  set sb m p CMNotOurs

/-- The `assert(get(slab) == CMMediumslab)` guarding
`DefaultChunkMap::clear_slab(Mediumslab*)`. -/
def clear_slab_medium_assert (sb : Nat) (m : Nat → Nat) (p : Nat) : Prop :=
  get sb m p = CMMediumslab

/-- `DefaultChunkMap::clear_slab(Mediumslab*)` (state update). -/
def clear_slab_medium (sb : Nat) (m : Nat → Nat) (p : Nat) : Nat → Nat :=
  set sb m p CMNotOurs

/-- The redirect-slide loop body of `DefaultChunkMap::set_large_size`,
recursing on the number of remaining iterations.  Iteration `i` writes
`static_cast<uint8_t>(64 + i + SUPERSLAB_BITS)` to a run of `2 ^ i` cells
at cursor `ss`, then advances `ss` by `SUPERSLAB_SIZE * 2 ^ i` bytes
(`uintptr_t` arithmetic, so modulo `2 ^ 64`). -/
def set_large_slide (sb : Nat) : Nat → (Nat → Nat) → Nat → Nat → (Nat → Nat)
  | 0, m, _, _ => m
  | fuel + 1, m, ss, i =>
    set_large_slide sb fuel
      (pagemap_set_range BYTE_MOD sb m ss (64 + i + sb) (2 ^ i))
      ((ss + SUPERSLAB_SIZE sb * 2 ^ i) % PTR_MOD) (i + 1)

/-- The iteration count `size_bits - SUPERSLAB_BITS` of the redirect-slide
loop, as the `size_t` subtraction the source performs (wrapping). -/
def set_large_size_iterations (sb S : Nat) : Nat :=
  (next_pow2_bits S + PTR_MOD - sb) % PTR_MOD

/-- `DefaultChunkMap::set_large_size(p, size)`: write
`next_pow2_bits(size)` to the head cell, then run the redirect slide
starting one granule after the head. -/
def set_large_size (sb : Nat) (m : Nat → Nat) (p S : Nat) : Nat → Nat :=
  set_large_slide sb (set_large_size_iterations sb S)
    (set sb m p (next_pow2_bits S)) ((p + SUPERSLAB_SIZE sb) % PTR_MOD) 0

/-- The `assert(get(p) == bits::next_pow2_bits(size))` guarding
`DefaultChunkMap::clear_large_size`. -/
def clear_large_size_assert (sb : Nat) (m : Nat → Nat) (p S : Nat) : Prop :=
  get sb m p = next_pow2_bits S

/-- `DefaultChunkMap::clear_large_size(p, size)` (state update): one range
write of `CMNotOurs` over `next_pow2(size) >> SUPERSLAB_BITS` cells. -/
def clear_large_size (sb : Nat) (m : Nat → Nat) (p S : Nat) : Nat → Nat :=
  pagemap_set_range BYTE_MOD sb m p CMNotOurs (next_pow2 S >>> sb)

/-- `DefaultChunkMap::getp(p)`: on ordinary hardware the rederivation hook
is the identity (the source body is `static_assert(offset); return p;`,
so only the `offset = true` instantiation exists). -/
def getp (p : Nat) : Nat := p

/-! ## The capability realization: `PALCHERIBSD::PalChunkMap` -/

/-- `PALCHERIBSD::PAGEMAP_PTR_ALIGN = 0x100`. -/
def PAGEMAP_PTR_ALIGN : Nat := 256

/-- `PalChunkMap::get(p)`: the low 8 bits of the address of the stored
capability (`static_cast<uint8_t>(address_cast(...))`). -/
def pal_get (sb : Nat) (m : Nat → Nat) (p : Nat) : Nat :=
  pagemap_get sb m p % BYTE_MOD

/-- `PalChunkMap::set(p, x)` (private helper): the stored value is a
pointer-sized cell. -/
def pal_set (sb : Nat) (m : Nat → Nat) (p x : Nat) : Nat → Nat :=
  pagemap_set PTR_MOD sb m p x

/-- `PalChunkMap::getp<offset>(p)`: align the stored capability's address
down to `PAGEMAP_PTR_ALIGN`, then either rebase it to `p`'s address
(`offset = true`) or return it as is (`offset = false`). -/
def pal_getp (offset : Bool) (sb : Nat) (m : Nat → Nat) (p : Nat) : Nat :=
  let pmp := align_down (pagemap_get sb m p) PAGEMAP_PTR_ALIGN
  if offset then pointer_offset pmp (pointer_diff pmp p) else pmp

/-- The `assert(pointer_align_down<SUPERSLAB_SIZE>(slab) == slab)` that
guards every `PalChunkMap` slab operation. -/
def pal_slab_align_assert (sb p : Nat) : Prop :=
  align_down p (SUPERSLAB_SIZE sb) = p

/-- `PalChunkMap::set_slab(Superslab*)`: store
`pointer_offset(slab, CMSuperslab)`. -/
def pal_set_slab_super (sb : Nat) (m : Nat → Nat) (p : Nat) : Nat → Nat :=
  pal_set sb m p (pointer_offset p CMSuperslab)

/-- `PalChunkMap::set_slab(Mediumslab*)`: store
`pointer_offset(slab, CMMediumslab)`. -/
def pal_set_slab_medium (sb : Nat) (m : Nat → Nat) (p : Nat) : Nat → Nat :=
  pal_set sb m p (pointer_offset p CMMediumslab)

/-- `PalChunkMap::clear_slab` (both overloads): store `NULL`. -/
def pal_clear_slab (sb : Nat) (m : Nat → Nat) (p : Nat) : Nat → Nat :=
  pal_set sb m p 0

/-- The redirect-slide loop of `PalChunkMap::set_large_size`: iteration
`i` writes the capability `pointer_offset(vp, 64 + i + SUPERSLAB_BITS)`
to a run of `2 ^ i` cells. -/
def pal_set_large_slide (sb : Nat) : Nat → (Nat → Nat) → Nat → Nat → Nat → (Nat → Nat)
  | 0, m, _, _, _ => m
  | fuel + 1, m, vp, ss, i =>
    pal_set_large_slide sb fuel
      (pagemap_set_range PTR_MOD sb m ss (pointer_offset vp (64 + i + sb)) (2 ^ i))
      vp ((ss + SUPERSLAB_SIZE sb * 2 ^ i) % PTR_MOD) (i + 1)

/-- `PalChunkMap::set_large_size(vp, size)`: store
`pointer_offset(vp, next_pow2_bits(size))` at the head, then the
redirect slide of head-derived capabilities. -/
def pal_set_large_size (sb : Nat) (m : Nat → Nat) (p S : Nat) : Nat → Nat :=
  pal_set_large_slide sb (set_large_size_iterations sb S)
    (pal_set sb m p (pointer_offset p (next_pow2_bits S))) p
    ((p + SUPERSLAB_SIZE sb) % PTR_MOD) 0

/-- The `assert(get(p) == bits::next_pow2_bits(size))` guarding
`PalChunkMap::clear_large_size`. -/
def pal_clear_large_size_assert (sb : Nat) (m : Nat → Nat) (p S : Nat) : Prop :=
  pal_get sb m p = next_pow2_bits S

/-- `PalChunkMap::clear_large_size(vp, size)`: one range write of `NULL`
over `next_pow2(size) >> SUPERSLAB_BITS` cells. -/
def pal_clear_large_size (sb : Nat) (m : Nat → Nat) (p S : Nat) : Nat → Nat :=
  pagemap_set_range PTR_MOD sb m p 0 (next_pow2 S >>> sb)

/-! ## Operation sequences over both realizations -/

/-- One chunk-map operation, used to compare the two realizations on a
common operation sequence. -/
inductive ChunkOp where
  | setSuper : Nat → ChunkOp
  | setMedium : Nat → ChunkOp
  | clearSuper : Nat → ChunkOp
  | clearMedium : Nat → ChunkOp
  | setLarge : Nat → Nat → ChunkOp
  | clearLarge : Nat → Nat → ChunkOp

/-- The base address an operation acts on. -/
def ChunkOp.base : ChunkOp → Nat
  | setSuper p => p
  | setMedium p => p
  | clearSuper p => p
  | clearMedium p => p
  | setLarge p _ => p
  | clearLarge p _ => p

/-- Run one operation on the plain realization. -/
def step_plain (sb : Nat) (m : Nat → Nat) : ChunkOp → (Nat → Nat)
  | .setSuper p => set_slab_super sb m p
  | .setMedium p => set_slab_medium sb m p
  | .clearSuper p => clear_slab_super sb m p
  | .clearMedium p => clear_slab_medium sb m p
  | .setLarge p S => set_large_size sb m p S
  | .clearLarge p S => clear_large_size sb m p S

/-- Run one operation on the capability realization. -/
def step_pal (sb : Nat) (m : Nat → Nat) : ChunkOp → (Nat → Nat)
  | .setSuper p => pal_set_slab_super sb m p
  | .setMedium p => pal_set_slab_medium sb m p
  | .clearSuper p => pal_clear_slab sb m p
  | .clearMedium p => pal_clear_slab sb m p
  | .setLarge p S => pal_set_large_size sb m p S
  | .clearLarge p S => pal_clear_large_size sb m p S

/-- Run a sequence of operations on the plain realization. -/
def run_plain (sb : Nat) (m : Nat → Nat) : List ChunkOp → (Nat → Nat)
  | [] => m
  | op :: ops => run_plain sb (step_plain sb m op) ops

/-- Run a sequence of operations on the capability realization. -/
def run_pal (sb : Nat) (m : Nat → Nat) : List ChunkOp → (Nat → Nat)
  | [] => m
  | op :: ops => run_pal sb (step_pal sb m op) ops

/-! ## Auxiliary lemmas -/

lemma next_pow2_bits_go_le :
    ∀ (fuel x : Nat), x ≤ fuel → x ≤ 2 ^ next_pow2_bits_go fuel x := by
  intro fuel
  induction fuel with
  | zero =>
    intro x hx
    have hx0 : x = 0 := by omega
    subst hx0
    simp [next_pow2_bits_go]
  | succ fuel ih =>
    intro x hx
    by_cases h1 : x ≤ 1
    · simp only [next_pow2_bits_go, if_pos h1, pow_zero]
      exact h1
    · have hrec := ih ((x + 1) / 2) (by omega)
      simp only [next_pow2_bits_go, if_neg h1, pow_succ]
      omega

/-- `S ≤ next_pow2 S`: the modelled rounding really rounds up. -/
lemma le_next_pow2 (x : Nat) : x ≤ next_pow2 x :=
  next_pow2_bits_go_le x x le_rfl

lemma mul_pow_shiftRight (q sb : Nat) : (q * 2 ^ sb) >>> sb = q := by
  rw [Nat.shiftRight_eq_div_pow]
  exact Nat.mul_div_cancel q (by positivity)

/-- Full characterization of the redirect-slide loop: starting with cursor
`(q + 2 ^ i) * 2 ^ sb` (the head granule is `q`) and loop counter `i`,
running `f` further iterations writes the distance code
`64 + log2(offset) + SUPERSLAB_BITS` to every granule offset in
`[2 ^ i, 2 ^ (i + f))` and leaves every other cell unchanged. -/
lemma set_large_slide_get (sb : Nat) :
    ∀ (f i q : Nat) (m : Nat → Nat),
      (q + 2 ^ (i + f)) * 2 ^ sb ≤ PTR_MOD →
      ∀ j, set_large_slide sb f m ((q + 2 ^ i) * 2 ^ sb % PTR_MOD) i j =
        if q + 2 ^ i ≤ j ∧ j < q + 2 ^ (i + f)
        then (64 + Nat.log 2 (j - q) + sb) % BYTE_MOD
        else m j := by
  intro f
  induction f with
  | zero =>
    intro i q m hle j
    simp only [set_large_slide, Nat.add_zero]
    rw [if_neg (by omega)]
  | succ f ih =>
    intro i q m hle j
    rw [show i + (f + 1) = (i + 1) + f from by omega] at hle ⊢
    have hsbpos : (0:Nat) < 2 ^ sb := by positivity
    have hipos : (0:Nat) < 2 ^ i := by positivity
    have hAB : (2:Nat) ^ (i + 1) = 2 ^ i + 2 ^ i := by
      rw [pow_succ]
      ring
    have hBC : (2:Nat) ^ (i + 1) ≤ 2 ^ ((i + 1) + f) :=
      Nat.pow_le_pow_right (by norm_num) (by omega)
    have h1 : q + 2 ^ i + 1 ≤ q + 2 ^ ((i + 1) + f) := by omega
    have ha : (q + 2 ^ i) * 2 ^ sb + 2 ^ sb ≤ PTR_MOD := by
      have hm := Nat.mul_le_mul_right (2 ^ sb) h1
      calc (q + 2 ^ i) * 2 ^ sb + 2 ^ sb = (q + 2 ^ i + 1) * 2 ^ sb := by ring
        _ ≤ (q + 2 ^ ((i + 1) + f)) * 2 ^ sb := hm
        _ ≤ PTR_MOD := hle
    have hamod : (q + 2 ^ i) * 2 ^ sb % PTR_MOD = (q + 2 ^ i) * 2 ^ sb :=
      Nat.mod_eq_of_lt (by omega)
    have hss : (q + 2 ^ i) * 2 ^ sb + SUPERSLAB_SIZE sb * 2 ^ i
        = (q + 2 ^ (i + 1)) * 2 ^ sb := by
      rw [SUPERSLAB_SIZE, hAB]
      ring
    simp only [set_large_slide, hamod, hss]
    rw [ih (i + 1) q _ hle j]
    simp only [pagemap_set_range, mul_pow_shiftRight]
    rcases Nat.lt_or_ge j (q + 2 ^ i) with hj | hj
    · rw [if_neg (by omega), if_neg (by omega), if_neg (by omega)]
    · rcases Nat.lt_or_ge j (q + 2 ^ (i + 1)) with hj2 | hj2
      · have hlog : Nat.log 2 (j - q) = i :=
          Nat.log_eq_of_pow_le_of_lt_pow (by omega) (by omega)
        rw [if_neg (by omega), if_pos (by omega), if_pos (by omega), hlog]
      · rcases Nat.lt_or_ge j (q + 2 ^ ((i + 1) + f)) with hj3 | hj3
        · rw [if_pos (by omega), if_pos (by omega)]
        · rw [if_neg (by omega), if_neg (by omega), if_neg (by omega)]

/-- Characterization of `set_large_size` for an aligned head `p` whose
rounded allocation fits the address space: the head granule stores
`next_pow2_bits S` (as a byte), the granule at offset `k` stores the
distance code `64 + log2 k + SUPERSLAB_BITS` (as a byte) for every
`1 ≤ k < next_pow2 S / SUPERSLAB_SIZE`, and every other cell keeps its
previous value. -/
lemma set_large_size_spec (sb : Nat) (m : Nat → Nat) (p S : Nat)
    (hal : p % 2 ^ sb = 0)
    (hsb : 2 ^ sb ≤ next_pow2 S)
    (hov : p + next_pow2 S ≤ PTR_MOD) :
    set_large_size sb m p S (p >>> sb) = next_pow2_bits S % BYTE_MOD
    ∧ (∀ k, 1 ≤ k → k < next_pow2 S >>> sb →
        set_large_size sb m p S (p >>> sb + k)
          = (64 + Nat.log 2 k + sb) % BYTE_MOD)
    ∧ (∀ j, j < p >>> sb ∨ p >>> sb + (next_pow2 S >>> sb) ≤ j →
        set_large_size sb m p S j = m j) := by
  have hsbpos : (0:Nat) < 2 ^ sb := by positivity
  rw [next_pow2] at hsb hov
  have hbsb : sb ≤ next_pow2_bits S :=
    (Nat.pow_le_pow_iff_right (by norm_num)).mp hsb
  have hble : next_pow2_bits S ≤ 64 := by
    have h2 : (2:Nat) ^ next_pow2_bits S ≤ 2 ^ 64 := by
      have := hov
      rw [PTR_MOD] at this
      omega
    exact (Nat.pow_le_pow_iff_right (by norm_num)).mp h2
  have hq : p >>> sb = p / 2 ^ sb := Nat.shiftRight_eq_div_pow p sb
  have hp : p / 2 ^ sb * 2 ^ sb = p :=
    Nat.div_mul_cancel (Nat.dvd_of_mod_eq_zero hal)
  have hfuel : set_large_size_iterations sb S = next_pow2_bits S - sb := by
    rw [set_large_size_iterations,
      show next_pow2_bits S + PTR_MOD - sb = PTR_MOD + (next_pow2_bits S - sb)
        from by omega,
      Nat.add_mod_left]
    refine Nat.mod_eq_of_lt ?_
    have h64 : (64:Nat) < PTR_MOD := by norm_num [PTR_MOD]
    omega
  have hcursor : (p + SUPERSLAB_SIZE sb) % PTR_MOD
      = (p / 2 ^ sb + 2 ^ 0) * 2 ^ sb % PTR_MOD := by
    rw [SUPERSLAB_SIZE, pow_zero]
    congr 1
    rw [add_mul, one_mul, hp]
  have hpowsum : (2:Nat) ^ (next_pow2_bits S - sb) * 2 ^ sb
      = 2 ^ next_pow2_bits S := by
    rw [← pow_add]
    congr 1
    omega
  have hle0 : (p / 2 ^ sb + 2 ^ (0 + (next_pow2_bits S - sb))) * 2 ^ sb
      ≤ PTR_MOD := by
    rw [Nat.zero_add, add_mul, hp, hpowsum]
    exact hov
  have hmain := set_large_slide_get sb (next_pow2_bits S - sb) 0 (p / 2 ^ sb)
    (set sb m p (next_pow2_bits S)) hle0
  have hrw : ∀ j, set_large_size sb m p S j
      = if p / 2 ^ sb + 1 ≤ j ∧ j < p / 2 ^ sb + 2 ^ (next_pow2_bits S - sb)
        then (64 + Nat.log 2 (j - p / 2 ^ sb) + sb) % BYTE_MOD
        else set sb m p (next_pow2_bits S) j := by
    intro j
    rw [set_large_size, hfuel, hcursor, hmain j]
    simp
  have hcount : next_pow2 S >>> sb = 2 ^ (next_pow2_bits S - sb) := by
    rw [next_pow2, Nat.shiftRight_eq_div_pow]
    exact Nat.pow_div hbsb (by norm_num)
  have hnpos : (0:Nat) < 2 ^ (next_pow2_bits S - sb) := by positivity
  refine ⟨?_, ?_, ?_⟩
  · rw [hq, hrw]
    rw [if_neg (by omega)]
    simp only [set, pagemap_set]
    rw [if_pos hq.symm]
  · intro k hk1 hk2
    rw [hcount] at hk2
    rw [hq, hrw]
    rw [if_pos (by omega)]
    rw [Nat.add_sub_cancel_left]
  · intro j hj
    rw [hcount] at hj
    rw [hq] at hj
    rw [hrw]
    rw [if_neg (by omega)]
    simp only [set, pagemap_set]
    rw [hq]
    rw [if_neg (by omega)]

/-! ## Simulation between the two realizations -/

/-- Simulation relation: each byte cell of the plain pagemap is the low
byte of the address of the capability stored in the corresponding cell of
the pointer-valued pagemap. -/
def cell_rel (mp mc : Nat → Nat) : Prop := ∀ j, mp j = mc j % BYTE_MOD

lemma byte_dvd_ptr : BYTE_MOD ∣ PTR_MOD := by norm_num [PTR_MOD, BYTE_MOD]

lemma cell_rel_set (sb p x y : Nat) (mp mc : Nat → Nat)
    (hR : cell_rel mp mc) (hxy : x % BYTE_MOD = y % BYTE_MOD) :
    cell_rel (pagemap_set BYTE_MOD sb mp p x) (pagemap_set PTR_MOD sb mc p y) := by
  intro j
  simp only [pagemap_set]
  by_cases hj : j = p >>> sb
  · rw [if_pos hj, if_pos hj, Nat.mod_mod_of_dvd y byte_dvd_ptr]
    exact hxy
  · rw [if_neg hj, if_neg hj]
    exact hR j

lemma cell_rel_set_range (sb p x y count : Nat) (mp mc : Nat → Nat)
    (hR : cell_rel mp mc) (hxy : x % BYTE_MOD = y % BYTE_MOD) :
    cell_rel (pagemap_set_range BYTE_MOD sb mp p x count)
      (pagemap_set_range PTR_MOD sb mc p y count) := by
  intro j
  simp only [pagemap_set_range]
  by_cases hj : p >>> sb ≤ j ∧ j < p >>> sb + count
  · rw [if_pos hj, if_pos hj, Nat.mod_mod_of_dvd y byte_dvd_ptr]
    exact hxy
  · rw [if_neg hj, if_neg hj]
    exact hR j

lemma cell_rel_slide (sb : Nat) :
    ∀ (f i ss vp : Nat) (mp mc : Nat → Nat),
      cell_rel mp mc → vp % BYTE_MOD = 0 →
      cell_rel (set_large_slide sb f mp ss i)
        (pal_set_large_slide sb f mc vp ss i) := by
  intro f
  induction f with
  | zero =>
    intro i ss vp mp mc hR _
    exact hR
  | succ f ih =>
    intro i ss vp mp mc hR hvp
    simp only [set_large_slide, pal_set_large_slide]
    refine ih (i + 1) _ vp _ _ ?_ hvp
    refine cell_rel_set_range sb ss (64 + i + sb) _ (2 ^ i) mp mc hR ?_
    rw [pointer_offset, Nat.mod_mod_of_dvd _ byte_dvd_ptr,
      Nat.add_mod vp (64 + i + sb) BYTE_MOD, hvp]
    simp [Nat.mod_mod]

lemma cell_rel_step (sb : Nat) (h8 : 8 ≤ sb) (op : ChunkOp)
    (hal : op.base % 2 ^ sb = 0) (mp mc : Nat → Nat) (hR : cell_rel mp mc) :
    cell_rel (step_plain sb mp op) (step_pal sb mc op) := by
  have hbase : op.base % BYTE_MOD = 0 := by
    have hd : (2:Nat) ^ sb ∣ op.base := Nat.dvd_of_mod_eq_zero hal
    have hd8 : (2:Nat) ^ 8 ∣ 2 ^ sb := Nat.pow_dvd_pow 2 h8
    have : BYTE_MOD ∣ op.base := by
      refine dvd_trans ?_ hd
      norm_num [BYTE_MOD] at hd8 ⊢
      exact hd8
    omega
  have hoff : ∀ c : Nat, c % BYTE_MOD = pointer_offset op.base c % BYTE_MOD := by
    intro c
    rw [pointer_offset, Nat.mod_mod_of_dvd _ byte_dvd_ptr,
      Nat.add_mod op.base c BYTE_MOD, hbase]
    simp [Nat.mod_mod]
  cases op with
  | setSuper p =>
    exact cell_rel_set sb p CMSuperslab _ mp mc hR (hoff CMSuperslab)
  | setMedium p =>
    exact cell_rel_set sb p CMMediumslab _ mp mc hR (hoff CMMediumslab)
  | clearSuper p =>
    exact cell_rel_set sb p CMNotOurs 0 mp mc hR rfl
  | clearMedium p =>
    exact cell_rel_set sb p CMNotOurs 0 mp mc hR rfl
  | setLarge p S =>
    refine cell_rel_slide sb _ 0 _ p _ _ ?_ hbase
    exact cell_rel_set sb p (next_pow2_bits S) _ mp mc hR (hoff (next_pow2_bits S))
  | clearLarge p S =>
    exact cell_rel_set_range sb p CMNotOurs 0 _ mp mc hR rfl

lemma cell_rel_run (sb : Nat) (h8 : 8 ≤ sb) :
    ∀ (ops : List ChunkOp), (∀ op ∈ ops, op.base % 2 ^ sb = 0) →
      ∀ (mp mc : Nat → Nat), cell_rel mp mc →
        cell_rel (run_plain sb mp ops) (run_pal sb mc ops) := by
  intro ops
  induction ops with
  | nil =>
    intro _ mp mc hR
    exact hR
  | cons op ops ih =>
    intro hal mp mc hR
    simp only [run_plain, run_pal]
    refine ih (fun o ho => hal o (List.mem_cons_of_mem op ho)) _ _ ?_
    exact cell_rel_step sb h8 op (hal op (List.mem_cons_self op ops)) mp mc hR

/-! ## Claim theorems -/

/-- Claim C1, as stated, is false on the code: with `SUPERSLAB_BITS = 21`,
after `set_large_size(0, 2 ^ 24)` the body cell at granule offset
`k = 1` (within the claimed range `1 ≤ k < next_pow2(S)/granule = 8`)
stores the distance code `x = 85`, and `2 ^ (x - 64) = 2 ^ 21 ≤ k` fails:
the stored code does not bracket the number of granule-cells separating
the cell from the head. -/
theorem claim_C1_counterexample :
    1 < next_pow2 (2 ^ 24) >>> 21
    ∧ get 21 (set_large_size 21 (fun _ => CMNotOurs) 0 (2 ^ 24)) (2 ^ 21) = 85
    ∧ ¬(2 ^ (85 - 64) ≤ 1 ∧ (1:Nat) < 2 ^ (85 + 1 - 64)) := by
  decide

/-- Claim C1 (amended): after `set_large_size(p, S)`, every body cell at
offset `k` granules from the head (`1 ≤ k < next_pow2(S)/granule`) holds
a distance code `x` such that `2 ^ (x - 64) ≤ k * 2 ^ SUPERSLAB_BITS <
2 ^ (x + 1 - 64)`: the code brackets the byte distance from the cell to
the head, not the granule count. -/
theorem claim_C1_amended (sb : Nat) (m : Nat → Nat) (p S : Nat)
    (hal : p % 2 ^ sb = 0) (hsb : 2 ^ sb ≤ next_pow2 S)
    (hov : p + next_pow2 S ≤ PTR_MOD)
    (k : Nat) (hk1 : 1 ≤ k) (hk2 : k < next_pow2 S >>> sb) :
    2 ^ (set_large_size sb m p S (p >>> sb + k) - 64) ≤ k * 2 ^ sb
    ∧ k * 2 ^ sb < 2 ^ (set_large_size sb m p S (p >>> sb + k) + 1 - 64) := by
  obtain ⟨-, hbody, -⟩ := set_large_size_spec sb m p S hal hsb hov
  rw [hbody k hk1 hk2]
  have hbsb : sb ≤ next_pow2_bits S := by
    rw [next_pow2] at hsb
    exact (Nat.pow_le_pow_iff_right (by norm_num)).mp hsb
  have hble : next_pow2_bits S ≤ 64 := by
    rw [next_pow2] at hov
    have h2 : (2:Nat) ^ next_pow2_bits S ≤ 2 ^ 64 := by
      rw [PTR_MOD] at hov
      omega
    exact (Nat.pow_le_pow_iff_right (by norm_num)).mp h2
  have hcount : next_pow2 S >>> sb = 2 ^ (next_pow2_bits S - sb) := by
    rw [next_pow2, Nat.shiftRight_eq_div_pow]
    exact Nat.pow_div hbsb (by norm_num)
  rw [hcount] at hk2
  have hlog : Nat.log 2 k < next_pow2_bits S - sb :=
    Nat.log_lt_of_lt_pow (by omega) hk2
  have hcode : (64 + Nat.log 2 k + sb) % BYTE_MOD = 64 + Nat.log 2 k + sb := by
    refine Nat.mod_eq_of_lt ?_
    have h256 : BYTE_MOD = 256 := rfl
    omega
  rw [hcode,
    show 64 + Nat.log 2 k + sb - 64 = Nat.log 2 k + sb from by omega,
    show 64 + Nat.log 2 k + sb + 1 - 64 = Nat.log 2 k + 1 + sb from by omega,
    pow_add, pow_add]
  constructor
  · exact Nat.mul_le_mul_right (2 ^ sb) (Nat.pow_log_le_self 2 (by omega))
  · have hk3 : k < 2 ^ (Nat.log 2 k + 1) := Nat.lt_pow_succ_log_self (by norm_num) k
    exact mul_lt_mul_of_pos_right hk3 (by positivity)

/-- Claim C2: `set_large_size(p, S)` writes `b = log2(next_pow2 S)` to
the head cell; then, for each `i < b - SUPERSLAB_BITS`, the granule
offsets `k` with `2 ^ i ≤ k < 2 ^ (i + 1)` (precisely the run of `2 ^ i`
cells the cursor covers at iteration `i`) receive distance code
`64 + i + SUPERSLAB_BITS`; no other cell changes, so the writes cover the
`next_pow2(S)/granule` cells of the allocation exactly. -/
theorem claim_C2_redirect_slide (sb : Nat) (m : Nat → Nat) (p S : Nat)
    (hal : p % 2 ^ sb = 0) (hsb : 2 ^ sb ≤ next_pow2 S)
    (hov : p + next_pow2 S ≤ PTR_MOD) :
    set_large_size sb m p S (p >>> sb) = next_pow2_bits S
    ∧ (∀ i k, i < next_pow2_bits S - sb → 2 ^ i ≤ k → k < 2 ^ (i + 1) →
        set_large_size sb m p S (p >>> sb + k) = 64 + i + sb)
    ∧ (∀ j, j < p >>> sb ∨ p >>> sb + (next_pow2 S >>> sb) ≤ j →
        set_large_size sb m p S j = m j) := by
  obtain ⟨hhead, hbody, hframe⟩ := set_large_size_spec sb m p S hal hsb hov
  have hbsb : sb ≤ next_pow2_bits S := by
    rw [next_pow2] at hsb
    exact (Nat.pow_le_pow_iff_right (by norm_num)).mp hsb
  have hble : next_pow2_bits S ≤ 64 := by
    rw [next_pow2] at hov
    have h2 : (2:Nat) ^ next_pow2_bits S ≤ 2 ^ 64 := by
      rw [PTR_MOD] at hov
      omega
    exact (Nat.pow_le_pow_iff_right (by norm_num)).mp h2
  have h256 : BYTE_MOD = 256 := rfl
  have hcount : next_pow2 S >>> sb = 2 ^ (next_pow2_bits S - sb) := by
    rw [next_pow2, Nat.shiftRight_eq_div_pow]
    exact Nat.pow_div hbsb (by norm_num)
  refine ⟨?_, ?_, hframe⟩
  · rw [hhead]
    exact Nat.mod_eq_of_lt (by omega)
  · intro i k hi hki hki1
    have hipos : (0:Nat) < 2 ^ i := by positivity
    have hk2 : k < next_pow2 S >>> sb := by
      rw [hcount]
      exact lt_of_lt_of_le hki1 (Nat.pow_le_pow_right (by norm_num) (by omega))
    rw [hbody k (by omega) hk2,
      Nat.log_eq_of_pow_le_of_lt_pow hki hki1]
    exact Nat.mod_eq_of_lt (by omega)

/-- Claim C3: `set_large_size(p, S)` immediately followed by
`clear_large_size(p, S)` resets to `CMNotOurs` exactly the
`next_pow2(S) >> SUPERSLAB_BITS` consecutive cells starting at the head
granule of `p` — precisely the set of cells registration wrote — and
leaves every other cell as it was before registration. -/
theorem claim_C3_roundtrip (sb : Nat) (m : Nat → Nat) (p S : Nat)
    (hal : p % 2 ^ sb = 0) (hS : 2 ^ sb ≤ S)
    (hov : p + next_pow2 S ≤ PTR_MOD) :
    (∀ j, p >>> sb ≤ j → j < p >>> sb + (next_pow2 S >>> sb) →
        clear_large_size sb (set_large_size sb m p S) p S j = CMNotOurs)
    ∧ (∀ j, j < p >>> sb ∨ p >>> sb + (next_pow2 S >>> sb) ≤ j →
        clear_large_size sb (set_large_size sb m p S) p S j = m j
        ∧ set_large_size sb m p S j = m j) := by
  have hsb : 2 ^ sb ≤ next_pow2 S := le_trans hS (le_next_pow2 S)
  obtain ⟨-, -, hframe⟩ := set_large_size_spec sb m p S hal hsb hov
  constructor
  · intro j hj1 hj2
    simp only [clear_large_size, pagemap_set_range]
    rw [if_pos ⟨hj1, hj2⟩]
    rfl
  · intro j hj
    have hset := hframe j hj
    simp only [clear_large_size, pagemap_set_range]
    rw [if_neg (by omega)]
    exact ⟨hset, hset⟩

/-- Claim C4: for a granule-aligned address `a`, `get` returns
`CMSuperslab` right after `set_slab(Superslab)`, `CMNotOurs` right after
`clear_slab(Superslab)`, and analogously `CMMediumslab` / `CMNotOurs` for
medium slabs; each of these operations writes only the single cell of the
granule containing `a`. -/
theorem claim_C4_slab_ops (sb : Nat) (m : Nat → Nat) (a : Nat)
    (_hal : a % 2 ^ sb = 0) :
    get sb (set_slab_super sb m a) a = CMSuperslab
    ∧ get sb (clear_slab_super sb m a) a = CMNotOurs
    ∧ get sb (set_slab_medium sb m a) a = CMMediumslab
    ∧ get sb (clear_slab_medium sb m a) a = CMNotOurs
    ∧ (∀ j, j ≠ a >>> sb →
        set_slab_super sb m a j = m j ∧ clear_slab_super sb m a j = m j
        ∧ set_slab_medium sb m a j = m j ∧ clear_slab_medium sb m a j = m j) := by
  refine ⟨?_, ?_, ?_, ?_, ?_⟩
  · simp [get, pagemap_get, set_slab_super, set, pagemap_set, CMSuperslab, BYTE_MOD]
  · simp [get, pagemap_get, clear_slab_super, set, pagemap_set, CMNotOurs, BYTE_MOD]
  · simp [get, pagemap_get, set_slab_medium, set, pagemap_set, CMMediumslab, BYTE_MOD]
  · simp [get, pagemap_get, clear_slab_medium, set, pagemap_set, CMNotOurs, BYTE_MOD]
  · intro j hj
    refine ⟨?_, ?_, ?_, ?_⟩ <;>
      simp [set_slab_super, clear_slab_super, set_slab_medium,
        clear_slab_medium, set, pagemap_set, hj]

lemma pal_getp_true_eq (sb : Nat) (m : Nat → Nat) (p : Nat) :
    pal_getp true sb m p
      = pointer_offset (align_down (pagemap_get sb m p) PAGEMAP_PTR_ALIGN)
          (pointer_diff (align_down (pagemap_get sb m p) PAGEMAP_PTR_ALIGN) p) :=
  rfl

lemma pal_getp_false_eq (sb : Nat) (m : Nat → Nat) (p : Nat) :
    pal_getp false sb m p
      = align_down (pagemap_get sb m p) PAGEMAP_PTR_ALIGN :=
  rfl

/-- Claim C5: in the capability realization, when the cell covering `p`
holds a capability `B + c` (region base `B` plus a low encoding value
`c < 0x100`, with `B` aligned to `0x100` and `B ≤ p`), `getp(p)` masks
the low encoding bits off the stored capability and returns, with
`offset = true`, a pointer whose address equals the address of `p`, and
with `offset = false`, the masked stored capability `B` itself. -/
theorem claim_C5_pal_getp (sb : Nat) (m : Nat → Nat) (p B c : Nat)
    (hcell : pagemap_get sb m p = B + c)
    (hB : B % PAGEMAP_PTR_ALIGN = 0) (hc : c < PAGEMAP_PTR_ALIGN)
    (hBp : B ≤ p) (hp : p < PTR_MOD) :
    pal_getp true sb m p = p ∧ pal_getp false sb m p = B := by
  have hA : PAGEMAP_PTR_ALIGN = 256 := rfl
  have hmod : (B + c) % PAGEMAP_PTR_ALIGN = c := by
    rw [hA] at hc hB ⊢
    omega
  have hmask : align_down (pagemap_get sb m p) PAGEMAP_PTR_ALIGN = B := by
    rw [hcell, align_down, hmod]
    omega
  have hBlt : B < PTR_MOD := by omega
  have hdiff : pointer_diff B p = p - B := by
    rw [pointer_diff, Nat.mod_eq_of_lt hBlt,
      show p + PTR_MOD - B = p - B + PTR_MOD from by omega,
      Nat.add_mod_right]
    exact Nat.mod_eq_of_lt (by omega)
  constructor
  · rw [pal_getp_true_eq, hmask, hdiff, pointer_offset,
      show B + (p - B) = p from by omega]
    exact Nat.mod_eq_of_lt hp
  · rw [pal_getp_false_eq, hmask]

/-- Claim C6: when the matching registration immediately precedes the
call, the assertion of each deregistration holds — `clear_slab` finds the
expected tag (`CMSuperslab` / `CMMediumslab`), and `clear_large_size`
finds `log2(next_pow2 S)` in the head cell — so the failure branch is
unreachable under that precondition. -/
theorem claim_C6_assert_holds (sb : Nat) (m : Nat → Nat) (p S : Nat)
    (hal : p % 2 ^ sb = 0) (hsb : 2 ^ sb ≤ next_pow2 S)
    (hov : p + next_pow2 S ≤ PTR_MOD) :
    clear_slab_super_assert sb (set_slab_super sb m p) p
    ∧ clear_slab_medium_assert sb (set_slab_medium sb m p) p
    ∧ clear_large_size_assert sb (set_large_size sb m p S) p S := by
  refine ⟨?_, ?_, ?_⟩
  · simp [clear_slab_super_assert, get, pagemap_get, set_slab_super, set,
      pagemap_set, CMSuperslab, BYTE_MOD]
  · simp [clear_slab_medium_assert, get, pagemap_get, set_slab_medium, set,
      pagemap_set, CMMediumslab, BYTE_MOD]
  · obtain ⟨hhead, -, -⟩ := set_large_size_spec sb m p S hal hsb hov
    have hble : next_pow2_bits S ≤ 64 := by
      rw [next_pow2] at hov
      have h2 : (2:Nat) ^ next_pow2_bits S ≤ 2 ^ 64 := by
        rw [PTR_MOD] at hov
        omega
      exact (Nat.pow_le_pow_iff_right (by norm_num)).mp h2
    have h256 : BYTE_MOD = 256 := rfl
    rw [clear_large_size_assert, get, pagemap_get, hhead]
    exact Nat.mod_eq_of_lt (by omega)

/-- Claim C7: the tag values `{CMNotOurs, CMSuperslab, CMMediumslab} =
{0, 1, 2}` are disjoint from the large-allocation size-code range
`[SUPERSLAB_BITS, 64)` and from the distance-code range `[64, 128)`;
this needs `SUPERSLAB_BITS > 2`, which is exactly what the compile-time
assertion `chunkmap_static_assert` enforces. -/
theorem claim_C7_tag_disjoint (sb t : Nat)
    (hassert : chunkmap_static_assert sb)
    (ht : t = CMNotOurs ∨ t = CMSuperslab ∨ t = CMMediumslab) :
    2 < sb
    ∧ ¬(sb ≤ t ∧ t < 64)
    ∧ ¬(64 ≤ t ∧ t < 128) := by
  have h2 : 2 < sb := hassert
  have ht2 : t ≤ 2 := by
    rcases ht with h | h | h <;> subst h <;>
      norm_num [CMNotOurs, CMSuperslab, CMMediumslab]
  exact ⟨h2, by omega, by omega⟩

/-- Claim C8: for `SUPERSLAB_SIZE ≤ next_pow2 S < 2 ^ 64`, the
redirect-slide loop of `set_large_size` executes exactly
`next_pow2_bits S - SUPERSLAB_BITS` iterations, which is at most
`64 - SUPERSLAB_BITS`; the recursion is fuelled by precisely this count,
so it terminates. -/
theorem claim_C8_loop_count (sb S : Nat)
    (hsb : 2 ^ sb ≤ next_pow2 S) (hlt : next_pow2 S < PTR_MOD) :
    set_large_size_iterations sb S = next_pow2_bits S - sb
    ∧ set_large_size_iterations sb S ≤ 64 - sb := by
  have hbsb : sb ≤ next_pow2_bits S := by
    rw [next_pow2] at hsb
    exact (Nat.pow_le_pow_iff_right (by norm_num)).mp hsb
  have hblt : next_pow2_bits S < 64 := by
    rw [next_pow2, PTR_MOD] at hlt
    exact (Nat.pow_lt_pow_iff_right (by norm_num)).mp hlt
  have heq : set_large_size_iterations sb S = next_pow2_bits S - sb := by
    rw [set_large_size_iterations,
      show next_pow2_bits S + PTR_MOD - sb = PTR_MOD + (next_pow2_bits S - sb)
        from by omega,
      Nat.add_mod_left]
    refine Nat.mod_eq_of_lt ?_
    have h64 : (64:Nat) < PTR_MOD := by norm_num [PTR_MOD]
    omega
  exact ⟨heq, by rw [heq]; omega⟩

/-- Claim C9: on ordinary (non-capability) hardware the rederivation hook
`DefaultChunkMap::getp` is the identity on pointers and reads no state. -/
theorem claim_C9_getp_identity : ∀ p : Nat, getp p = p :=
  fun _ => rfl

/-- Claim C10: the plain byte realization and the capability realization
are observationally equivalent through `get`: starting from
default-initialized tables (all `CMNotOurs` bytes, respectively all
`NULL` capabilities) and applying the same sequence of granule-aligned
slab and large-allocation operations to both, `get(p)` returns the same
classification code in both realizations for every address `p`; in
particular never-written and cleared cells classify as `CMNotOurs` in
both, because `NULL`'s low 8 address bits are `CMNotOurs`. -/
theorem claim_C10_realizations_agree (sb : Nat) (h8 : 8 ≤ sb)
    (ops : List ChunkOp) (hal : ∀ op ∈ ops, op.base % 2 ^ sb = 0)
    (p : Nat) :
    get sb (run_plain sb (fun _ => CMNotOurs) ops) p
      = pal_get sb (run_pal sb (fun _ => 0) ops) p := by
  have hR : cell_rel (fun _ => CMNotOurs) (fun _ => 0) := fun _ => rfl
  have h := cell_rel_run sb h8 ops hal _ _ hR
  rw [get, pagemap_get, pal_get, pagemap_get]
  exact h (p >>> sb)

/-! ## Witnesses -/

/-- Witness for claim C1 (amended), at `SUPERSLAB_BITS = 21`, `p = 0`,
`S = 2 ^ 24`, `k = 1`: the stored code (85) brackets the byte distance
`1 * 2 ^ 21`. -/
theorem claim_C1_amended_witness :
    2 ^ (set_large_size 21 (fun _ => CMNotOurs) 0 (2 ^ 24) ((0:Nat) >>> 21 + 1) - 64)
      ≤ 1 * 2 ^ 21
    ∧ 1 * 2 ^ 21
      < 2 ^ (set_large_size 21 (fun _ => CMNotOurs) 0 (2 ^ 24) ((0:Nat) >>> 21 + 1) + 1 - 64) :=
  claim_C1_amended 21 (fun _ => CMNotOurs) 0 (2 ^ 24) (by decide) (by decide)
    (by decide) 1 (by decide) (by decide)

/-- Witness for claim C2, at `SUPERSLAB_BITS = 21`, `p = 0`, `S = 2 ^ 24`:
the head cell gets `24` and offset `4` gets code `64 + 2 + 21 = 87`. -/
theorem claim_C2_witness :
    set_large_size 21 (fun _ => CMNotOurs) 0 (2 ^ 24) ((0:Nat) >>> 21)
      = next_pow2_bits (2 ^ 24)
    ∧ set_large_size 21 (fun _ => CMNotOurs) 0 (2 ^ 24) ((0:Nat) >>> 21 + 4)
      = 64 + 2 + 21 := by
  have h := claim_C2_redirect_slide 21 (fun _ => CMNotOurs) 0 (2 ^ 24)
    (by decide) (by decide) (by decide)
  exact ⟨h.1, h.2.1 2 4 (by decide) (by decide) (by decide)⟩

/-- Witness for claim C3, at `SUPERSLAB_BITS = 21`, `p = 0`, `S = 2 ^ 24`:
the head cell reads `CMNotOurs` after the round trip. -/
theorem claim_C3_witness :
    clear_large_size 21 (set_large_size 21 (fun _ => CMNotOurs) 0 (2 ^ 24)) 0 (2 ^ 24)
      ((0:Nat) >>> 21) = CMNotOurs := by
  have h := claim_C3_roundtrip 21 (fun _ => CMNotOurs) 0 (2 ^ 24)
    (by decide) (by decide) (by decide)
  exact h.1 ((0:Nat) >>> 21) (by decide) (by decide)

/-- Witness for claim C4, at `SUPERSLAB_BITS = 21`, `a = 0`: `get` reads
`CMSuperslab` right after `set_slab`. -/
theorem claim_C4_witness :
    get 21 (set_slab_super 21 (fun _ => CMNotOurs) 0) 0 = CMSuperslab :=
  (claim_C4_slab_ops 21 (fun _ => CMNotOurs) 0 (by decide)).1

/-- Witness for claim C5, at `SUPERSLAB_BITS = 21`, with the cell holding
the capability `2 ^ 21 + CMSuperslab` and `p` an interior pointer. -/
theorem claim_C5_witness :
    pal_getp true 21 (fun _ => 2 ^ 21 + 1) (2 ^ 21 + 300) = 2 ^ 21 + 300
    ∧ pal_getp false 21 (fun _ => 2 ^ 21 + 1) (2 ^ 21 + 300) = 2 ^ 21 :=
  claim_C5_pal_getp 21 (fun _ => 2 ^ 21 + 1) (2 ^ 21 + 300) (2 ^ 21) 1
    (by decide) (by decide) (by decide) (by decide) (by decide)

/-- Witness for claim C6, at `SUPERSLAB_BITS = 21`, `p = 0`, `S = 2 ^ 24`. -/
theorem claim_C6_witness :
    clear_slab_super_assert 21 (set_slab_super 21 (fun _ => CMNotOurs) 0) 0
    ∧ clear_slab_medium_assert 21 (set_slab_medium 21 (fun _ => CMNotOurs) 0) 0
    ∧ clear_large_size_assert 21
        (set_large_size 21 (fun _ => CMNotOurs) 0 (2 ^ 24)) 0 (2 ^ 24) :=
  claim_C6_assert_holds 21 (fun _ => CMNotOurs) 0 (2 ^ 24)
    (by decide) (by decide) (by decide)

/-- Witness for claim C7, at `SUPERSLAB_BITS = 21`, tag `CMSuperslab`. -/
theorem claim_C7_witness :
    2 < 21
    ∧ ¬(21 ≤ CMSuperslab ∧ CMSuperslab < 64)
    ∧ ¬(64 ≤ CMSuperslab ∧ CMSuperslab < 128) :=
  claim_C7_tag_disjoint 21 CMSuperslab (by decide) (Or.inr (Or.inl rfl))

/-- Witness for claim C8, at `SUPERSLAB_BITS = 21`, `S = 2 ^ 24`: three
loop iterations, at most `64 - 21`. -/
theorem claim_C8_witness :
    set_large_size_iterations 21 (2 ^ 24) = next_pow2_bits (2 ^ 24) - 21
    ∧ set_large_size_iterations 21 (2 ^ 24) ≤ 64 - 21 :=
  claim_C8_loop_count 21 (2 ^ 24) (by decide) (by decide)

/-- Witness for claim C10, at `SUPERSLAB_BITS = 21`, registering one
large allocation at address `0` in both realizations and classifying the
head address. -/
theorem claim_C10_witness :
    get 21 (run_plain 21 (fun _ => CMNotOurs) [ChunkOp.setLarge 0 (2 ^ 24)]) 0
      = pal_get 21 (run_pal 21 (fun _ => 0) [ChunkOp.setLarge 0 (2 ^ 24)]) 0 := by
  refine claim_C10_realizations_agree 21 (by norm_num) [ChunkOp.setLarge 0 (2 ^ 24)] ?_ 0
  intro op hop
  simp only [List.mem_singleton] at hop
  subst hop
  decide

end snmalloc
